import Mathlib

/-!
Verification of the schema-aware structural editor core of pyfomod
(`src/pyfomod/parser.py`), shallowly embedded in Lean 4.

The embedding mirrors `FomodElement`'s pure logic directly.  The external
XML-schema validator (`lxml.etree.XMLSchema.validate`) is an external
collaborator of the repository and is represented as a boolean oracle over
the tag skeleton of a candidate child list; where a claim needs a concrete
grammar, the oracle is instantiated with the XSD language of that grammar.
Python exceptions are represented by an explicit error type, and methods
that can both raise and mutate are embedded as state-passing functions
returning the resulting element together with the outcome.
-/

namespace Pyfomod

/-- The Python exceptions raised by `parser.py`, one constructor per raise
site (plus the crash modes of unguarded `None` dereferences and empty-list
indexing).  `lookupFailure` and `restrictionViolation` and the child-related
errors are all `ValueError` in Python but carry distinct messages. -/
inductive PyErr where
  | typeError
  | lookupFailure
  | restrictionViolation
  | notAChild
  | cannotAdd
  | attributeError
  | indexError
deriving DecidableEq, Repr

/-- `_OrderIndicator` / `_ChildElement` (parser.py lines 71-95): the content
model descriptor tree.  `ord` is an order indicator (`type` is
`"sequence"`, `"choice"` or `"all"`), `elem` a valid child slot.
`max_occ = none` is the `unbounded` sentinel. -/
inductive CMItem where
  | ord (type : String) (element_list : List CMItem) (max_occ : Option Nat) (min_occ : Nat)
  | elem (tag : String) (max_occ : Option Nat) (min_occ : Nat)

mutual

/-- Contribution of one member of an order indicator's `element_list` to the
required children, exactly as both `_required_children_choice` and
`_required_children_sequence` (parser.py lines 593-641) dispatch on it:
a nested `_OrderIndicator` is recursed into (choice vs sequence by its
`type`), a `_ChildElement` contributes `(tag, min_occ)` iff `min_occ > 0`. -/
def required_item : CMItem → List (String × Nat)
  | .ord t el _ mn =>
    if t == "choice" then
      match el with
      | [] => []
      | p :: _ => (required_item p).map (fun x => (x.1, x.2 * mn))
    else
      (required_list el).map (fun x => (x.1, x.2 * mn))
  | .elem tag _ mn => if 0 < mn then [(tag, mn)] else []

/-- Concatenation of member contributions, mirroring the `for elem in
sequence.element_list` loop of `_required_children_sequence`. -/
def required_list : List CMItem → List (String × Nat)
  | [] => []
  | e :: rest => required_item e ++ required_list rest

end

/-- `FomodElement._required_children_choice` (parser.py lines 593-620):
select the first alternative (empty `element_list` gives `[]` via the
`IndexError` handler), take its contribution, multiply every count by the
choice's own `min_occ`. -/
def _required_children_choice : CMItem → List (String × Nat)
  | .ord _ el _ mn =>
    match el with
    | [] => []
    | p :: _ => (required_item p).map (fun x => (x.1, x.2 * mn))
  | .elem _ _ _ => []

/-- `FomodElement._required_children_sequence` (parser.py lines 622-641):
concatenate the contributions of all members, multiply every count by the
group's own `min_occ`.  (The `.elem` case is unreachable: the method is only
called on `_OrderIndicator` tuples.) -/
def _required_children_sequence : CMItem → List (String × Nat)
  | .ord _ el _ mn => (required_list el).map (fun x => (x.1, x.2 * mn))
  | .elem _ _ _ => []

/-- `FomodElement.required_children` (parser.py lines 643-658), parameterised
by the result of `valid_children()` (`none` when the element admits no
children; `valid_children` otherwise returns an `_OrderIndicator`, never a
bare `_ChildElement`). -/
def required_children : Option CMItem → List (String × Nat)
  | none => []
  | some (.ord t el mx mn) =>
    if t == "choice" then _required_children_choice (.ord t el mx mn)
    else _required_children_sequence (.ord t el mx mn)
  | some (.elem _ _ _) => []

/-- `_AttrRestElement` (parser.py line 62): one value of a restriction. -/
structure AttrRestElement where
  value : String
  doc : Option String
deriving DecidableEq, Repr

/-- `_AttrRestriction` (parser.py lines 42-44): an attribute's value
restrictions.  Only the `type` string and the enumeration list are ever
populated by `valid_attributes`; the ten remaining facet fields of the
namedtuple are always `None` by design and are omitted here. -/
structure AttrRestriction where
  type : String
  enum_list : List AttrRestElement
deriving DecidableEq, Repr

/-- `_Attribute` (parser.py line 27): one legal attribute of an element as
produced by `valid_attributes`. -/
structure Attr where
  name : String
  doc : Option String
  default : Option String
  type : Option String
  use : String
  restriction : Option AttrRestriction
deriving DecidableEq, Repr

/-- Character-list version of Python's `in` substring test. -/
def charsStartWith : List Char → List Char → Bool
  | [], _ => true
  | _ :: _, [] => false
  | a :: as, b :: bs => a == b && charsStartWith as bs

/-- Substring scan used by `charsStartWith` at every suffix. -/
def charsContain (pat : List Char) : List Char → Bool
  | [] => charsStartWith pat []
  | c :: t => charsStartWith pat (c :: t) || charsContain pat t

/-- Python's `pat in s` on strings (substring containment), as used by
`set_attribute`'s check `'enumeration' in possible_attr.restriction.type`. -/
def strContains (s pat : String) : Bool := charsContain pat.toList s.toList

/-- A node of the live document tree: tag, attribute map (in document
order), optional text, the optional preceding comment owned by the node
(`FomodElement._comment`), and the ordered child list. -/
inductive Node where
  | mk (tag : String) (attrs : List (String × String)) (text : Option String)
      (comment : Option String) (children : List Node)

/-- Tag of a document node. -/
def Node.tag : Node → String
  | .mk t _ _ _ _ => t

/-- Attribute map of a document node. -/
def Node.attrs : Node → List (String × String)
  | .mk _ a _ _ _ => a

/-- Text of a document node. -/
def Node.text : Node → Option String
  | .mk _ _ x _ _ => x

/-- Preceding comment owned by a document node. -/
def Node.comment : Node → Option String
  | .mk _ _ _ c _ => c

/-- Ordered child list of a document node. -/
def Node.children : Node → List Node
  | .mk _ _ _ _ ch => ch

mutual

/-- Decidable equality on document nodes. -/
def Node.decEq : (a b : Node) → Decidable (a = b)
  | .mk t1 a1 x1 c1 ch1, .mk t2 a2 x2 c2 ch2 =>
    match Node.decEqList ch1 ch2 with
    | isTrue h5 =>
      if h1 : t1 = t2 then
        if h2 : a1 = a2 then
          if h3 : x1 = x2 then
            if h4 : c1 = c2 then isTrue (by rw [h1, h2, h3, h4, h5])
            else isFalse (by intro h; injection h; contradiction)
          else isFalse (by intro h; injection h; contradiction)
        else isFalse (by intro h; injection h; contradiction)
      else isFalse (by intro h; injection h; contradiction)
    | isFalse h5 => isFalse (by intro h; injection h; contradiction)

/-- Decidable equality on lists of document nodes. -/
def Node.decEqList : (a b : List Node) → Decidable (a = b)
  | [], [] => isTrue rfl
  | [], _ :: _ => isFalse (by intro h; injection h)
  | _ :: _, [] => isFalse (by intro h; injection h)
  | n :: ns, m :: ms =>
    match Node.decEq n m, Node.decEqList ns ms with
    | isTrue h1, isTrue h2 => isTrue (by rw [h1, h2])
    | isFalse h1, _ => isFalse (by intro h; injection h; contradiction)
    | _, isFalse h2 => isFalse (by intro h; injection h; contradiction)

end

instance : DecidableEq Node := Node.decEq

/-- `FomodElement._find_valid_attribute` (parser.py lines 500-516): first
attribute with the given name among `valid_attributes`, else the
`ValueError` "No valid attribute with name ..." (the spec's LookupFailure).
The schema-derived `valid_attributes()` result is passed in as `vattrs`. -/
def _find_valid_attribute (vattrs : List Attr) (name : String) : Except PyErr Attr :=
  match vattrs.find? (fun a => a.name == name) with
  | some a => .ok a
  | none => .error .lookupFailure

/-- `FomodElement.get_attribute` (parser.py lines 518-536): the document
value if the attribute is set (`self.get(name)`), else the schema default of
the valid attribute, else the empty string. -/
def get_attribute (self : Node) (vattrs : List Attr) (name : String) :
    Except PyErr String :=
  match self.attrs.lookup name with
  | some v => .ok v
  | none =>
    match _find_valid_attribute vattrs name with
    | .error e => .error e
    | .ok a =>
      match a.default with
      | some d => .ok d
      | none => .ok ""

/-- lxml's `element.set(name, value)`: replace the value in place if the
attribute is present, else append it. -/
def setAttrMap (attrs : List (String × String)) (name value : String) :
    List (String × String) :=
  if (attrs.lookup name).isSome then
    attrs.map (fun p => if p.1 == name then (name, value) else p)
  else attrs ++ [(name, value)]

/-- `FomodElement.set_attribute` (parser.py lines 538-556), state-passing:
returns the resulting element and the raised exception, if any.  A raise
happens before `self.set`, so the element is returned unchanged in every
error case. -/
def set_attribute (self : Node) (vattrs : List Attr) (name value : String) :
    Node × Option PyErr :=
  match _find_valid_attribute vattrs name with
  | .error _ => (self, some .lookupFailure)
  | .ok a =>
    match a.restriction with
    | some r =>
      if strContains r.type "enumeration" then
        if value ∈ r.enum_list.map (fun e => e.value) then
          (.mk self.tag (setAttrMap self.attrs name value) self.text self.comment
            self.children, none)
        else (self, some .restrictionViolation)
      else
        (.mk self.tag (setAttrMap self.attrs name value) self.text self.comment
          self.children, none)
    | none =>
      (.mk self.tag (setAttrMap self.attrs name value) self.text self.comment
        self.children, none)

/-- An argument of the dynamically typed child-manipulation API: a tag
string, an element, or a value of any other Python type (the
`isinstance` checks of `can_*`/`add_child` dispatch on this). -/
inductive ChildArg where
  | tagArg (s : String)
  | elemArg (e : Node)
  | otherArg
deriving DecidableEq

/-- Whether an argument is a `FomodElement` (`isinstance(x, FomodElement)`). -/
def isElemArg : ChildArg → Bool
  | .elemArg _ => true
  | _ => false

/-- Python's `x in self` on an lxml element for a `can_*` argument: true
exactly for an element among the children (a string is never a child). -/
def argMem (a : ChildArg) (cs : List Node) : Bool :=
  match a with
  | .elemArg e => decide (e ∈ cs)
  | _ => false

/-- Tags of the children, in order: the structural skeleton built by
`_setup_shallow_schema_and_self` (parser.py lines 683-685) keeps exactly
this data (`etree.SubElement(self_copy, elem.tag)` for each child). -/
def childTags (self : Node) : List String :=
  self.children.map (fun c => c.tag)

/-- List with `x` inserted at position `i` (positions past the end append). -/
def insertAt {α : Type} (l : List α) (i : Nat) (x : α) : List α :=
  l.take i ++ x :: l.drop i

/-- `FomodElement._find_possible_index` (parser.py lines 689-715),
parameterised by the external validator's verdict `validate` on candidate
tag skeletons under the element's shallow synthetic schema.  The test
element is appended first; if that validates the result is `-1`.  Otherwise
the loop `for index in reversed(range(len(self_copy)))` moves the (still
appended) test element in front of the child currently at `index`, which
leaves the skeleton at `insertAt tags index tag` for each `index` from
`tags.length` (a no-op re-test of the append) down to `0`, and returns the
first (rightmost) validating position, else `None`. -/
def _find_possible_index (validate : List String → Bool) (tags : List String)
    (tag : String) : Option Int :=
  if validate (tags ++ [tag]) then some (-1)
  else
    match ((List.range (tags.length + 1)).reverse).find?
        (fun i => validate (insertAt tags i tag)) with
    | some i => some (Int.ofNat i)
    | none => none

/-- lxml's `parent.insert(index, x)` for an element `x` that is not
currently a child: a negative `index` counts from the end
(`_findChildBackwards(parent, -index-1)`), and when no child sits at the
resolved position the element is appended. -/
def lxmlInsert (cs : List Node) (index : Int) (x : Node) : List Node :=
  let target : Int := if index < 0 then (cs.length : Int) + index else index
  if 0 ≤ target ∧ target < (cs.length : Int) then insertAt cs target.toNat x
  else cs ++ [x]

/-- lxml's `parent.insert(index, x)` when `x` is currently the last child
(the `etree.SubElement(self, tag)` case of `add_child`): the element is
moved in front of the child at the resolved position; when that child is
`x` itself (`xmlAddPrevSibling(cur, elem)` with `cur == elem`) nothing
happens and `x` stays at the end. -/
def lxmlInsertLast (cs : List Node) (index : Int) (x : Node) : List Node :=
  let target : Int := if index < 0 then (cs.length : Int) + 1 + index else index
  if 0 ≤ target ∧ target < (cs.length : Int) + 1 then
    if target = (cs.length : Int) then cs ++ [x]
    else insertAt cs target.toNat x
  else cs ++ [x]

/-- A fresh bare element created by `etree.SubElement(self, tag)` or
`etree.Element(tag)`. -/
def bareNode (tag : String) : Node := .mk tag [] none none []

/-- `FomodElement.add_child` (parser.py lines 760-788), state-passing.
For a tag argument, `etree.SubElement(self, tag)` first appends the new
element and `self.insert(index, child)` then moves it; for an element
argument only `self.insert(index, child)` runs, bringing the outside
element in. -/
def add_child (validate : List String → Bool) (self : Node) (child : ChildArg) :
    Node × Option PyErr :=
  match child with
  | .otherArg => (self, some .typeError)
  | .tagArg t =>
    match _find_possible_index validate (childTags self) t with
    | none => (self, some .cannotAdd)
    | some idx =>
      (.mk self.tag self.attrs self.text self.comment
        (lxmlInsertLast self.children idx (bareNode t)), none)
  | .elemArg e =>
    match _find_possible_index validate (childTags self) e.tag with
    | none => (self, some .cannotAdd)
    | some idx =>
      (.mk self.tag self.attrs self.text self.comment
        (lxmlInsert self.children idx e), none)

/-- `FomodElement.can_add_child` (parser.py lines 717-758): trial validation
only, paired with the (untouched) live element. -/
def can_add_child (validate : List String → Bool) (self : Node)
    (child : ChildArg) : (Except PyErr Bool) × Node :=
  match child with
  | .tagArg t =>
    (.ok (_find_possible_index validate (childTags self) t).isSome, self)
  | .elemArg e =>
    (.ok (_find_possible_index validate (childTags self) e.tag).isSome, self)
  | .otherArg => (.error .typeError, self)

/-- `FomodElement.can_remove_child` (parser.py lines 790-809): `TypeError`
for a non-element argument, `ValueError` when the element is not a child,
else the validator's verdict on the skeleton with the child's index removed. -/
def can_remove_child (validate : List String → Bool) (self : Node)
    (child : ChildArg) : (Except PyErr Bool) × Node :=
  match child with
  | .elemArg e =>
    if e ∈ self.children then
      (.ok (validate ((childTags self).eraseIdx (self.children.indexOf e))), self)
    else (.error .notAChild, self)
  | _ => (.error .typeError, self)

/-- `FomodElement.can_replace_child` (parser.py lines 811-833).  The
`isinstance` guard uses `or`, so `TypeError` fires only when **both**
arguments are non-elements; the containment guard requires **both** the old
and the new child to be children of the element.  (The final branch is
unreachable: `argMem` only holds for element arguments.) -/
def can_replace_child (validate : List String → Bool) (self : Node)
    (old new : ChildArg) : (Except PyErr Bool) × Node :=
  if !(isElemArg old || isElemArg new) then (.error .typeError, self)
  else if !(argMem old self.children && argMem new self.children) then
    (.error .notAChild, self)
  else
    match old, new with
    | .elemArg o, .elemArg n =>
      (.ok (validate ((childTags self).set (self.children.indexOf o) n.tag)), self)
    | _, _ => (.error .typeError, self)

/-- `FomodElement.can_copy_child` (parser.py lines 835-854): same `or`-based
`isinstance` guard, containment of the child only, then
`new_parent.can_add_child(child)` — which is an `AttributeError` when
`new_parent` is not an element. -/
def can_copy_child (vdest : List String → Bool) (self : Node)
    (child newParent : ChildArg) : (Except PyErr Bool) × Node × ChildArg :=
  if !(isElemArg child || isElemArg newParent) then
    (.error .typeError, self, newParent)
  else if !(argMem child self.children) then (.error .notAChild, self, newParent)
  else
    match newParent with
    | .elemArg p => ((can_add_child vdest p child).1, self, newParent)
    | _ => (.error .attributeError, self, newParent)

/-- `FomodElement.can_move_child` (parser.py lines 856-875): like
`can_copy_child` but additionally `and self.can_remove_child(child)`, with
Python's short-circuiting `and`. -/
def can_move_child (vdest vsrc : List String → Bool) (self : Node)
    (child newParent : ChildArg) : (Except PyErr Bool) × Node × ChildArg :=
  if !(isElemArg child || isElemArg newParent) then
    (.error .typeError, self, newParent)
  else if !(argMem child self.children) then (.error .notAChild, self, newParent)
  else
    match newParent with
    | .elemArg p =>
      match (can_add_child vdest p child).1 with
      | .ok true => ((can_remove_child vsrc self child).1, self, newParent)
      | .ok false => (.ok false, self, newParent)
      | .error e => (.error e, self, newParent)
    | _ => (.error .attributeError, self, newParent)

/-- The external validator's verdict for the synthetic shallow schema
`sequence(minOccurs=1,maxOccurs=1) [ A(minOccurs=0,maxOccurs=unbounded),
B(minOccurs=1,maxOccurs=1) ]`: a tag skeleton is valid iff it is some
number of `A`s followed by exactly one `B`.  Modelled from the spec: the
validation engine itself is an external collaborator of the repository
(`lxml.etree.XMLSchema.validate`). -/
def validateSeqAB (l : List String) : Bool :=
  l.dropWhile (fun t => t == "A") == ["B"]

/-- A node of the (immutable) schema document: local tag name (namespace
prefixes stripped, as in the `{ns}tag` / `xs:tag` expressions of
parser.py), XML attributes, and child nodes. -/
inductive SNode where
  | mk (tag : String) (attrs : List (String × String)) (children : List SNode)

/-- Local tag name of a schema node. -/
def SNode.tag : SNode → String
  | .mk t _ _ => t

/-- XML attributes of a schema node. -/
def SNode.attrs : SNode → List (String × String)
  | .mk _ a _ => a

/-- Children of a schema node. -/
def SNode.children : SNode → List SNode
  | .mk _ _ cs => cs

/-- lxml's `element.get(key)` on a schema node. -/
def SNode.getAttr (n : SNode) (k : String) : Option String := n.attrs.lookup k

/-- Whether a schema node is an order indicator, i.e. matches the xpath
`xs:all | xs:sequence | xs:choice` used throughout `_lookup_element`. -/
def isOrd (n : SNode) : Bool :=
  n.tag == "all" || n.tag == "sequence" || n.tag == "choice"

/-- `current_element.find("{ns}element[@name=t]")`: the first direct child
that is an `element` declaration named `t`. -/
def findElemNamed (t : String) (cs : List SNode) : Option SNode :=
  cs.find? (fun c => c.tag == "element" && c.getAttr "name" == some t)

mutual

/-- The `while holder_element is None and first:` loop of `_lookup_element`
(parser.py lines 319-323), started on one order indicator: look for the
declaration among its direct children, else descend into its **first**
order-indicator child (`first = first[0].xpath(ord_exp)` discards the other
candidates of the list). -/
def spineFind (t : String) : SNode → Option SNode
  | .mk _ _ cs =>
    match findElemNamed t cs with
    | some h => some h
    | none => spineFindFirstOrd t cs

/-- Entry of the loop from a child list: start at the first order-indicator
child (`first[0]` of the xpath result), ignore the rest. -/
def spineFindFirstOrd (t : String) : List SNode → Option SNode
  | [] => none
  | c :: rest => if isOrd c then spineFind t c else spineFindFirstOrd t rest

end

mutual

/-- Full recursive existence of a declaration `element[@name=t]` inside a
subtree, descending through every order indicator (the search the spec
describes; `spineFind` explores a subset of it). -/
def containsDecl (t : String) : SNode → Bool
  | .mk _ _ cs => (findElemNamed t cs).isSome || containsDeclList t cs

/-- `containsDecl` over every order-indicator member of a child list. -/
def containsDeclList (t : String) : List SNode → Bool
  | [] => false
  | c :: rest =>
    (if isOrd c then containsDecl t c else false) || containsDeclList t rest

end

/-- `FomodElement._get_order_from_group` (parser.py lines 216-228): resolve
a `group` reference to the first order indicator of the named group
declaration at the schema root.  A missing group declaration crashes with
`AttributeError` (`group_ref` is `None`), a group without order indicator
with `IndexError` (`[...][0]` on an empty xpath result). -/
def resolveGroupOrd (schema g : SNode) : Except PyErr SNode :=
  match schema.children.find?
      (fun c => c.tag == "group" && c.getAttr "name" == g.getAttr "ref") with
  | none => .error .attributeError
  | some gr =>
    match gr.children.find? isOrd with
    | none => .error .indexError
    | some o => .ok o

/-- The per-level scope update of `_lookup_element` (parser.py lines
326-341): no `type` attribute means an inline `complexType` child becomes
the scope; a `xs:`-prefixed builtin type means the holder itself is the
content type (leaf); otherwise the named `complexType` is looked up at the
schema root.  A failed `find` yields `none` (Python `None`), which only
crashes at the next level's use. -/
def typeStep (schema h : SNode) : Option SNode :=
  match h.getAttr "type" with
  | none => h.children.find? (fun c => c.tag == "complexType")
  | some ty =>
    if ty.startsWith "xs:" then some h
    else
      schema.children.find?
        (fun c => c.tag == "complexType" && c.getAttr "name" == some ty)

/-- One level of `_lookup_element` (parser.py lines 300-341): direct
declaration first; else the `group` reference if a `group` child exists,
else the order indicators declared directly in scope, searched by the
spine loop.  When nothing is found, the unguarded
`holder_element.get('type')` dereferences `None` — an `AttributeError`,
not a designed lookup error. -/
def lookupLevel (schema cur : SNode) (t : String) :
    Except PyErr (SNode × Option SNode) :=
  match findElemNamed t cur.children with
  | some h => .ok (h, typeStep schema h)
  | none =>
    match
      (match cur.children.find? (fun c => c.tag == "group") with
       | some g =>
         match resolveGroupOrd schema g with
         | .error e => .error e
         | .ok o => .ok (spineFind t o)
       | none => .ok (spineFindFirstOrd t cur.children) :
        Except PyErr (Option SNode)) with
    | .error e => .error e
    | .ok none => .error .attributeError
    | .ok (some h) => .ok (h, typeStep schema h)

/-- The `for elem in ancestor_list` walk of `_lookup_element` over the
root-first tag chain, threading the scope (`current_element`, `none` once a
`complexType` lookup failed) and the last holder declaration. -/
def lookup_loop (schema : SNode) :
    List String → Option SNode → Option SNode →
      Except PyErr (Option SNode × Option SNode)
  | [], current, holder => .ok (holder, current)
  | t :: rest, current, _holder =>
    match current with
    | none => .error .attributeError
    | some cur =>
      match lookupLevel schema cur t with
      | .error e => .error e
      | .ok (h, newCur) => lookup_loop schema rest newCur (some h)

/-- `FomodElement._lookup_element` (parser.py lines 283-343) on the
root-first list of ancestor tags ending in the element's own tag.  Returns
the pair (holder declaration, content type). -/
def _lookup_element (schema : SNode) (tags : List String) :
    Except PyErr (Option SNode × Option SNode) :=
  lookup_loop schema tags (some schema) none

/-- Whether a declaration named `t` exists at a level, in any of the three
places the Schema Index consults: as a direct declaration in scope, inside
the referenced named group's order indicator (searched recursively), or
inside the order indicators declared directly in scope (searched
recursively). -/
def declExists (schema cur : SNode) (t : String) : Bool :=
  (findElemNamed t cur.children).isSome ||
  (match cur.children.find? (fun c => c.tag == "group") with
   | some g =>
     match resolveGroupOrd schema g with
     | .ok o => containsDecl t o
     | .error _ => false
   | none => false) ||
  containsDeclList t cur.children

theorem required_list_eq_flatten :
    ∀ el : List CMItem, required_list el = (el.map required_item).flatten
  | [] => rfl
  | e :: rest => by
    simp [required_list, required_list_eq_flatten rest]

/-- C2: for the content model `sequence(minOcc=1,maxOcc=1) of
A(minOcc=0,maxOcc=unbounded), B(minOcc=1,maxOcc=1)` with current children
`[A, B]`, the trial-validation index search of `can_add_child("A")` reports
insertion index 1 (between A and B), not the append position: appending
after B fails validation and index 1 is the rightmost validating position. -/
theorem find_possible_index_between_A_and_B :
    _find_possible_index validateSeqAB ["A", "B"] "A" = some 1 ∧
    (can_add_child validateSeqAB
      (.mk "elem" [] none none [bareNode "A", bareNode "B"]) (.tagArg "A")).1 =
      .ok true :=
  ⟨rfl, rfl⟩

/-- C3: `_required_children_choice` uses only the first alternative of a
choice (the result does not depend on the remaining alternatives) and
multiplies its contribution by the choice's own `min_occ`; in particular
`choice(minOcc=2) of A(minOcc=1), B(minOcc=1)` yields exactly `[(A, 2)]`,
never mentioning B. -/
theorem required_children_choice_first_alternative :
    (∀ (t : String) (p : CMItem) (rest : List CMItem) (mx : Option Nat) (mn : Nat),
        _required_children_choice (.ord t (p :: rest) mx mn) =
          (required_item p).map (fun x => (x.1, x.2 * mn))) ∧
    required_children
        (some (.ord "choice" [.elem "A" (some 1) 1, .elem "B" (some 1) 1]
          (some 1) 2)) =
      [("A", 2)] :=
  ⟨fun _ _ _ _ _ => rfl, rfl⟩

/-- C4, counterexample: a nested group member with `minOcc = 0` does *not*
contribute nothing — `_required_children_sequence` recurses into it
unconditionally and keeps its tags with count multiplied to 0, so
`sequence(minOcc=1) of sequence(minOcc=0) of A(minOcc=1)` yields
`[("A", 0)]`, not the empty list the claim demands. -/
theorem required_children_sequence_zero_group_counterexample :
    _required_children_sequence
        (.ord "sequence" [.ord "sequence" [.elem "A" (some 1) 1] (some 1) 0]
          (some 1) 1) =
      [("A", 0)] ∧
    required_children
        (some (.ord "sequence" [.ord "sequence" [.elem "A" (some 1) 1] (some 1) 0]
          (some 1) 1)) =
      [("A", 0)] ∧
    [(("A" : String), (0 : Nat))] ≠ [] :=
  ⟨rfl, rfl, by simp⟩

/-- C4, amended: for a `sequence`/`all` group, the computation concatenates
the contributions of **all** members in order and multiplies every count by
the group's own `min_occ`; a leaf member contributes itself iff its own
`min_occ > 0`, while a nested group member is recursed into regardless of
its `min_occ` — a nested non-choice group with `min_occ = 0` contributes
its required tags with count 0 instead of contributing nothing. -/
theorem required_children_sequence_characterization :
    (∀ (t : String) (el : List CMItem) (mx : Option Nat) (mn : Nat),
        _required_children_sequence (.ord t el mx mn) =
          ((el.map required_item).flatten).map (fun x => (x.1, x.2 * mn))) ∧
    (∀ (tag : String) (mxe : Option Nat) (mne : Nat),
        required_item (.elem tag mxe mne) =
          if 0 < mne then [(tag, mne)] else []) ∧
    (∀ (t : String) (el : List CMItem) (mx : Option Nat),
        t ≠ "choice" →
        required_item (.ord t el mx 0) =
          (required_list el).map (fun x => (x.1, 0))) := by
  refine ⟨?_, ?_, ?_⟩
  · intro t el mx mn
    simp [_required_children_sequence, required_list_eq_flatten]
  · intro tag mxe mne
    rfl
  · intro t el mx ht
    have hb : (t == "choice") = false := beq_eq_false_iff_ne.mpr ht
    rw [required_item.eq_def]
    simp [hb]

/-- Witness for the amended C4 at a concrete input with a hypothesis:
`all ≠ choice`, and an `all(minOcc=0)` group holding `A(minOcc=1)`
contributes `[("A", 0)]`. -/
theorem required_children_sequence_characterization_witness :
    required_item (.ord "all" [.elem "A" (some 1) 1] (some 1) 0) =
      [("A", 0)] :=
  required_children_sequence_characterization.2.2 "all"
    [.elem "A" (some 1) 1] (some 1) (by decide)

/-- C10: a `choice` order indicator with an empty `element_list` makes
`_required_children_choice` (and hence `required_children`) return the
empty list — the `IndexError` on `element_list[0]` is caught — instead of
failing. -/
theorem required_children_choice_empty :
    ∀ (mx : Option Nat) (mn : Nat),
      _required_children_choice (.ord "choice" [] mx mn) = [] ∧
      required_children (some (.ord "choice" [] mx mn)) = [] :=
  fun _ _ => ⟨rfl, rfl⟩

/-- C1, code bug: under the grammar `sequence of a(1,1), b(0,1)` with
current children `[a]`, `can_add_child` approves adding `b` and the trial
search reports the append position (`-1`).  `add_child` given the tag
string `"b"` appends correctly, but given an (unattached) element `<b/>`
the call `self.insert(-1, child)` places it **before** the last child —
yielding child order `[b, a]`, an invalid document — instead of at the end
as the claim requires. -/
theorem add_child_element_append_misplaced :
    (can_add_child (fun l => l == ["a"] || l == ["a", "b"])
        (.mk "p" [] none none [bareNode "a"]) (.elemArg (bareNode "b"))).1 =
      .ok true ∧
    _find_possible_index (fun l => l == ["a"] || l == ["a", "b"]) ["a"] "b" =
      some (-1) ∧
    childTags (add_child (fun l => l == ["a"] || l == ["a", "b"])
        (.mk "p" [] none none [bareNode "a"]) (.elemArg (bareNode "b"))).1 =
      ["b", "a"] ∧
    childTags (add_child (fun l => l == ["a"] || l == ["a", "b"])
        (.mk "p" [] none none [bareNode "a"]) (.tagArg "b")).1 =
      ["a", "b"] :=
  ⟨rfl, rfl, rfl, rfl⟩

/-- C9: every `can_*` query is read-only with respect to the live document:
whatever the validator verdicts and the arguments, the subject element (and
for copy/move also the destination argument) comes back exactly as it went
in — tag, attribute map, text, comment and ordered child list included —
because trial validation only builds and mutates fresh shallow copies. -/
theorem can_queries_read_only :
    ∀ (v v2 : List String → Bool) (self : Node) (a old new np : ChildArg),
      (can_add_child v self a).2 = self ∧
      (can_remove_child v self a).2 = self ∧
      (can_replace_child v self old new).2 = self ∧
      (can_copy_child v self a np).2 = (self, np) ∧
      (can_move_child v v2 self a np).2 = (self, np) := by
  intro v v2 self a old new np
  refine ⟨?_, ?_, ?_, ?_, ?_⟩
  · cases a <;> rfl
  · cases a <;> simp only [can_remove_child] <;> split <;> rfl
  · rw [can_replace_child.eq_def]
    split
    · rfl
    · split
      · rfl
      · split <;> rfl
  · rw [can_copy_child.eq_def]
    split
    · rfl
    · split
      · rfl
      · split <;> rfl
  · rw [can_move_child.eq_def]
    split
    · rfl
    · split
      · rfl
      · split
        · split <;> rfl
        · rfl

/-- C5, counterexample: `get_attribute` returns the document-stored value
of an attribute even when that attribute is not schema-recognized (here an
empty `valid_attributes` list), instead of raising LookupFailure as the
claim requires. -/
theorem get_attribute_unrecognized_counterexample :
    get_attribute (.mk "n" [("junk", "v")] none none []) [] "junk" = .ok "v" ∧
    get_attribute (.mk "n" [("junk", "v")] none none []) [] "junk" ≠
      .error .lookupFailure := by
  exact ⟨rfl, fun h => Except.noConfusion h⟩

/-- C5, amended: `get_attribute` returns the document-stored value whenever
the attribute is set — without checking schema recognition — and only for
an unset attribute falls back on the schema: the declared default when one
exists, else the empty string, raising LookupFailure exactly when the
attribute is both unset and not among the schema-recognized attributes. -/
theorem get_attribute_characterization :
    ∀ (self : Node) (vattrs : List Attr) (name : String),
      (∀ v, self.attrs.lookup name = some v →
        get_attribute self vattrs name = .ok v) ∧
      (self.attrs.lookup name = none →
        vattrs.find? (fun a => a.name == name) = none →
        get_attribute self vattrs name = .error .lookupFailure) ∧
      (∀ a, self.attrs.lookup name = none →
        vattrs.find? (fun a => a.name == name) = some a →
        get_attribute self vattrs name = .ok (a.default.getD "")) := by
  intro self vattrs name
  refine ⟨?_, ?_, ?_⟩
  · intro v hv
    simp [get_attribute, hv]
  · intro h1 h2
    simp [get_attribute, _find_valid_attribute, h1, h2]
  · intro a h1 h2
    simp only [get_attribute, _find_valid_attribute, h1, h2]
    cases a.default <;> rfl

/-- Witness for the amended C5: a required attribute with schema default
`"1.0"`, unset on the document, reads as `"1.0"`. -/
theorem get_attribute_characterization_witness :
    get_attribute (.mk "fomod" [] none none [])
        [⟨"MachineVersion", none, some "1.0", some "string", "required", none⟩]
        "MachineVersion" =
      .ok "1.0" :=
  (get_attribute_characterization (.mk "fomod" [] none none [])
      [⟨"MachineVersion", none, some "1.0", some "string", "required", none⟩]
      "MachineVersion").2.2
    ⟨"MachineVersion", none, some "1.0", some "string", "required", none⟩ rfl rfl

/-- C6: for a schema-recognized attribute, `set_attribute` raises
RestrictionViolation exactly when the attribute carries an enumeration
restriction (`'enumeration' in restriction.type`) and the value is not
among its enumerated values, and in that case the element — its attribute
map included — is returned unchanged; in every other case the attribute is
set to the given value in place. -/
theorem set_attribute_enum_characterization :
    ∀ (self : Node) (vattrs : List Attr) (name value : String) (a : Attr),
      _find_valid_attribute vattrs name = .ok a →
      ((set_attribute self vattrs name value =
          (self, some .restrictionViolation)) ↔
        ∃ r, a.restriction = some r ∧
          strContains r.type "enumeration" = true ∧
          value ∉ r.enum_list.map (fun e => e.value)) ∧
      ((∃ r, a.restriction = some r ∧
          strContains r.type "enumeration" = true ∧
          value ∉ r.enum_list.map (fun e => e.value)) ∨
        set_attribute self vattrs name value =
          (.mk self.tag (setAttrMap self.attrs name value) self.text
            self.comment self.children, none)) := by
  intro self vattrs name value a hfind
  obtain ⟨an, ad, adf, aty, au, ar⟩ := a
  rw [set_attribute.eq_def, hfind]
  dsimp only
  cases ar with
  | none =>
    refine ⟨?_, Or.inr rfl⟩
    simp [Prod.ext_iff]
  | some r =>
    dsimp only
    by_cases hs : strContains r.type "enumeration" = true
    · by_cases hv : value ∈ r.enum_list.map (fun e => e.value)
      · rw [if_pos hs, if_pos hv]
        refine ⟨?_, Or.inr rfl⟩
        constructor
        · intro h
          exact absurd h (by simp [Prod.ext_iff])
        · rintro ⟨r2, hr2, -, hnv⟩
          injection hr2 with he
          subst he
          exact absurd hv hnv
      · rw [if_pos hs, if_neg hv]
        refine ⟨?_, Or.inl ⟨r, rfl, hs, hv⟩⟩
        constructor
        · intro _
          exact ⟨r, rfl, hs, hv⟩
        · intro _
          rfl
    · rw [if_neg hs]
      refine ⟨?_, Or.inr rfl⟩
      constructor
      · intro h
        exact absurd h (by simp [Prod.ext_iff])
      · rintro ⟨r2, hr2, hs2, -⟩
        injection hr2 with he
        subst he
        exact absurd hs2 hs

/-- Witness for C6: against an enumeration restricted to `doop`, setting
`b` to `boop` raises RestrictionViolation and leaves the (attribute-less)
element unchanged. -/
theorem set_attribute_enum_characterization_witness :
    set_attribute (.mk "n" [] none none [])
        [⟨"b", none, none, some "string", "optional",
          some ⟨"enumeration ", [⟨"doop", none⟩]⟩⟩]
        "b" "boop" =
      ((.mk "n" [] none none []), some .restrictionViolation) :=
  ((set_attribute_enum_characterization (.mk "n" [] none none [])
      [⟨"b", none, none, some "string", "optional",
        some ⟨"enumeration ", [⟨"doop", none⟩]⟩⟩]
      "b" "boop"
      ⟨"b", none, none, some "string", "optional",
        some ⟨"enumeration ", [⟨"doop", none⟩]⟩⟩ rfl).1).mpr
    ⟨⟨"enumeration ", [⟨"doop", none⟩]⟩, rfl, rfl, by decide⟩

theorem can_remove_typeError_iff (v : List String → Bool) (self : Node)
    (child : ChildArg) :
    (can_remove_child v self child).1 = .error .typeError ↔
      isElemArg child = false := by
  cases child with
  | elemArg e =>
    simp only [can_remove_child, isElemArg]
    split <;> simp
  | tagArg s => simp [can_remove_child, isElemArg]
  | otherArg => simp [can_remove_child, isElemArg]

theorem can_remove_notAChild_iff (v : List String → Bool) (self : Node)
    (child : ChildArg) :
    (can_remove_child v self child).1 = .error .notAChild ↔
      ∃ e, child = .elemArg e ∧ e ∉ self.children := by
  cases child with
  | elemArg e =>
    simp only [can_remove_child]
    by_cases he : e ∈ self.children
    · rw [if_pos he]
      simp [he]
    · rw [if_neg he]
      simp [he]
  | tagArg s => simp [can_remove_child]
  | otherArg => simp [can_remove_child]

theorem can_remove_ok (v : List String → Bool) (self : Node) (e : Node)
    (he : e ∈ self.children) :
    (can_remove_child v self (.elemArg e)).1 =
      .ok (v ((childTags self).eraseIdx (self.children.indexOf e))) := by
  simp [can_remove_child, he]

theorem can_replace_typeError_iff (v : List String → Bool) (self : Node)
    (old new : ChildArg) :
    (can_replace_child v self old new).1 = .error .typeError ↔
      (isElemArg old = false ∧ isElemArg new = false) := by
  rcases old with s | o | _ <;> rcases new with s2 | n | _ <;>
      rw [can_replace_child.eq_def] <;>
      simp only [isElemArg, argMem, Bool.or_self, Bool.or_false, Bool.false_or,
        Bool.or_true, Bool.true_or, Bool.not_true, Bool.not_false, Bool.false_and,
        Bool.and_false, if_true, if_false] <;>
      simp <;>
      split <;> simp

theorem can_replace_notAChild_iff (v : List String → Bool) (self : Node)
    (old new : ChildArg) :
    (can_replace_child v self old new).1 = .error .notAChild ↔
      ((isElemArg old = true ∨ isElemArg new = true) ∧
        ¬(argMem old self.children = true ∧ argMem new self.children = true)) := by
  rcases old with s | o | _ <;> rcases new with s2 | n | _ <;>
      rw [can_replace_child.eq_def] <;>
      simp only [isElemArg, argMem, Bool.or_self, Bool.or_false, Bool.false_or,
        Bool.or_true, Bool.true_or, Bool.not_true, Bool.not_false, Bool.false_and,
        Bool.and_false, if_true, if_false] <;>
      simp <;>
      split <;> simp_all <;> tauto

theorem can_replace_ok (v : List String → Bool) (self : Node) (o n : Node)
    (ho : o ∈ self.children) (hn : n ∈ self.children) :
    (can_replace_child v self (.elemArg o) (.elemArg n)).1 =
      .ok (v ((childTags self).set (self.children.indexOf o) n.tag)) := by
  rw [can_replace_child.eq_def]
  simp [isElemArg, argMem, ho, hn]

theorem can_move_spec (v v2 : List String → Bool) (self : Node)
    (child np : ChildArg) :
    ((can_move_child v v2 self child np).1 = .error .typeError ↔
      (isElemArg child = false ∧ isElemArg np = false)) ∧
    ((can_move_child v v2 self child np).1 = .error .notAChild ↔
      ((isElemArg child = true ∨ isElemArg np = true) ∧
        argMem child self.children = false)) ∧
    ((can_move_child v v2 self child np).1 = .error .attributeError ↔
      (argMem child self.children = true ∧ isElemArg np = false)) ∧
    (∀ e p, child = .elemArg e → np = .elemArg p → e ∈ self.children →
      ∃ b, (can_move_child v v2 self child np).1 = .ok b) := by
  rcases child with s | e | _ <;> rcases np with s2 | p | _ <;>
      rw [can_move_child.eq_def] <;>
      simp only [isElemArg, argMem, Bool.or_self, Bool.or_false, Bool.false_or,
        Bool.or_true, Bool.true_or, Bool.not_true, Bool.not_false, if_true,
        if_false] <;>
      refine ⟨?_, ?_, ?_, ?_⟩ <;>
      simp [can_add_child, can_remove_child]
  all_goals by_cases he : e ∈ self.children
  all_goals simp [he]
  all_goals cases hb : (_find_possible_index v (childTags p) e.tag).isSome <;>
    simp [hb, he]

theorem can_add_spec (v : List String → Bool) (self : Node) (child : ChildArg) :
    ((can_add_child v self child).1 = .error .typeError ↔ child = .otherArg) ∧
    (∀ s, child = .tagArg s →
      (can_add_child v self child).1 =
        .ok (_find_possible_index v (childTags self) s).isSome) ∧
    (∀ e, child = .elemArg e →
      (can_add_child v self child).1 =
        .ok (_find_possible_index v (childTags self) e.tag).isSome) := by
  rcases child with s | e | _ <;> simp [can_add_child]

theorem can_copy_spec (v : List String → Bool) (self : Node)
    (child np : ChildArg) :
    ((can_copy_child v self child np).1 = .error .typeError ↔
      (isElemArg child = false ∧ isElemArg np = false)) ∧
    ((can_copy_child v self child np).1 = .error .notAChild ↔
      ((isElemArg child = true ∨ isElemArg np = true) ∧
        argMem child self.children = false)) ∧
    ((can_copy_child v self child np).1 = .error .attributeError ↔
      (argMem child self.children = true ∧ isElemArg np = false)) ∧
    (∀ e p, child = .elemArg e → np = .elemArg p → e ∈ self.children →
      (can_copy_child v self child np).1 =
        .ok (_find_possible_index v (childTags p) e.tag).isSome) := by
  rcases child with s | e | _ <;> rcases np with s2 | p | _ <;>
      rw [can_copy_child.eq_def] <;>
      simp only [isElemArg, argMem, Bool.or_self, Bool.or_false, Bool.false_or,
        Bool.or_true, Bool.true_or, Bool.not_true, Bool.not_false, if_true,
        if_false] <;>
      refine ⟨?_, ?_, ?_, ?_⟩ <;>
      simp [can_add_child]
  all_goals by_cases he : e ∈ self.children
  all_goals simp [he]

/-- C7, counterexample: `can_remove_child` on an element that is not a
child of the subject raises the `ValueError` "child argument is not a child
of this element" instead of returning false, and `can_replace_child` given
a wrong-kind second argument (a tag string) together with a proper element
does **not** raise `TypeError` (the `isinstance` guard joins with `or`):
it raises the same `ValueError` instead. -/
theorem can_queries_valueerror_counterexample :
    (can_remove_child (fun _ => true) (.mk "p" [] none none [bareNode "a"])
        (.elemArg (bareNode "z"))).1 = .error .notAChild ∧
    (.error .notAChild : Except PyErr Bool) ≠ .error .typeError ∧
    (can_replace_child (fun _ => true) (.mk "p" [] none none [bareNode "a"])
        (.elemArg (bareNode "a")) (.tagArg "x")).1 = .error .notAChild := by
  refine ⟨rfl, ?_, rfl⟩
  intro h
  injection h with h2
  cases h2

/-- C7, amended: the `can_*` queries return false rather than raise only
once their argument checks pass; `can_add_child` raises `TypeError` iff its
argument is neither a tag string nor an element, and otherwise returns the
trial-validation verdict; `can_remove_child` raises `TypeError` iff its
argument is not an element and `ValueError` iff the element is not a child;
`can_replace_child`, `can_move_child` and `can_copy_child` raise
`TypeError` only when **both** arguments are non-elements (the guard uses
`or`), `ValueError` when the containment check fails (for replace, both the
old and the new child must already be children; for move/copy, the child
must be a child of the source), and `can_move_child`/`can_copy_child` with
a wrong-kind destination but valid child fail with an `AttributeError`;
with arguments that pass every check, each query returns a boolean verdict
and never raises. -/
theorem can_queries_error_characterization :
    ∀ (v v2 : List String → Bool) (self : Node) (child old new np : ChildArg),
      ((can_remove_child v self child).1 = .error .typeError ↔
        isElemArg child = false) ∧
      ((can_remove_child v self child).1 = .error .notAChild ↔
        ∃ e, child = .elemArg e ∧ e ∉ self.children) ∧
      (∀ e, child = .elemArg e → e ∈ self.children →
        (can_remove_child v self child).1 =
          .ok (v ((childTags self).eraseIdx (self.children.indexOf e)))) ∧
      ((can_replace_child v self old new).1 = .error .typeError ↔
        (isElemArg old = false ∧ isElemArg new = false)) ∧
      ((can_replace_child v self old new).1 = .error .notAChild ↔
        ((isElemArg old = true ∨ isElemArg new = true) ∧
          ¬(argMem old self.children = true ∧
            argMem new self.children = true))) ∧
      (∀ o n, old = .elemArg o → new = .elemArg n → o ∈ self.children →
        n ∈ self.children →
        (can_replace_child v self old new).1 =
          .ok (v ((childTags self).set (self.children.indexOf o) n.tag))) ∧
      ((can_move_child v v2 self child np).1 = .error .typeError ↔
        (isElemArg child = false ∧ isElemArg np = false)) ∧
      ((can_move_child v v2 self child np).1 = .error .notAChild ↔
        ((isElemArg child = true ∨ isElemArg np = true) ∧
          argMem child self.children = false)) ∧
      ((can_move_child v v2 self child np).1 = .error .attributeError ↔
        (argMem child self.children = true ∧ isElemArg np = false)) ∧
      (∀ e p, child = .elemArg e → np = .elemArg p → e ∈ self.children →
        ∃ b, (can_move_child v v2 self child np).1 = .ok b) ∧
      ((can_add_child v self child).1 = .error .typeError ↔
        child = .otherArg) ∧
      (∀ s, child = .tagArg s →
        (can_add_child v self child).1 =
          .ok (_find_possible_index v (childTags self) s).isSome) ∧
      (∀ e, child = .elemArg e →
        (can_add_child v self child).1 =
          .ok (_find_possible_index v (childTags self) e.tag).isSome) ∧
      ((can_copy_child v self child np).1 = .error .typeError ↔
        (isElemArg child = false ∧ isElemArg np = false)) ∧
      ((can_copy_child v self child np).1 = .error .notAChild ↔
        ((isElemArg child = true ∨ isElemArg np = true) ∧
          argMem child self.children = false)) ∧
      ((can_copy_child v self child np).1 = .error .attributeError ↔
        (argMem child self.children = true ∧ isElemArg np = false)) ∧
      (∀ e p, child = .elemArg e → np = .elemArg p → e ∈ self.children →
        (can_copy_child v self child np).1 =
          .ok (_find_possible_index v (childTags p) e.tag).isSome) := by
  intro v v2 self child old new np
  obtain ⟨hm1, hm2, hm3, hm4⟩ := can_move_spec v v2 self child np
  obtain ⟨ha1, ha2, ha3⟩ := can_add_spec v self child
  obtain ⟨hc1, hc2, hc3, hc4⟩ := can_copy_spec v self child np
  refine ⟨can_remove_typeError_iff v self child,
    can_remove_notAChild_iff v self child, ?_,
    can_replace_typeError_iff v self old new,
    can_replace_notAChild_iff v self old new, ?_, hm1, hm2, hm3, hm4,
    ha1, ha2, ha3, hc1, hc2, hc3, hc4⟩
  · intro e he hmem
    subst he
    exact can_remove_ok v self e hmem
  · intro o n ho hn hom hnm
    subst ho
    subst hn
    exact can_replace_ok v self o n hom hnm

/-- Witness for the amended C7: removing the only child (an element that is
a child) is answered with a boolean verdict, not an exception. -/
theorem can_queries_error_characterization_witness :
    (can_remove_child (fun _ => false) (.mk "p" [] none none [bareNode "a"])
        (.elemArg (bareNode "a"))).1 = .ok false :=
  (can_queries_error_characterization (fun _ => false) (fun _ => false)
      (.mk "p" [] none none [bareNode "a"]) (.elemArg (bareNode "a"))
      .otherArg .otherArg .otherArg).2.2.1
    (bareNode "a") rfl (by decide)

mutual

theorem spineFind_none (t : String) :
    ∀ n : SNode, containsDecl t n = false → spineFind t n = none
  | .mk tg a cs, h => by
    simp only [containsDecl, Bool.or_eq_false_iff] at h
    obtain ⟨h1, h2⟩ := h
    cases hfe : findElemNamed t cs with
    | some x =>
      rw [hfe] at h1
      simp at h1
    | none =>
      simp only [spineFind, hfe]
      exact spineFindFirstOrd_none t cs h2

theorem spineFindFirstOrd_none (t : String) :
    ∀ l : List SNode, containsDeclList t l = false → spineFindFirstOrd t l = none
  | [], _ => rfl
  | c :: rest, h => by
    simp only [containsDeclList, Bool.or_eq_false_iff] at h
    obtain ⟨h1, h2⟩ := h
    simp only [spineFindFirstOrd]
    by_cases hc : isOrd c = true
    · rw [if_pos hc]
      apply spineFind_none
      rwa [if_pos hc] at h1
    · rw [if_neg hc]
      exact spineFindFirstOrd_none t rest h2

end

theorem resolveGroupOrd_error_shape (schema g : SNode) (e : PyErr)
    (h : resolveGroupOrd schema g = .error e) :
    e = .attributeError ∨ e = .indexError := by
  unfold resolveGroupOrd at h
  split at h
  · injection h with h2
    exact Or.inl h2.symm
  · split at h
    · injection h with h2
      exact Or.inr h2.symm
    · exact Except.noConfusion h

theorem lookupLevel_missing (schema cur : SNode) (t : String)
    (h : declExists schema cur t = false) :
    lookupLevel schema cur t = .error .attributeError ∨
      lookupLevel schema cur t = .error .indexError := by
  unfold declExists at h
  simp only [Bool.or_eq_false_iff] at h
  obtain ⟨⟨h1, h2⟩, h3⟩ := h
  rw [lookupLevel.eq_def]
  cases hfe : findElemNamed t cur.children with
  | some x =>
    rw [hfe] at h1
    simp at h1
  | none =>
    dsimp only
    cases hg : cur.children.find? (fun c => c.tag == "group") with
    | some g =>
      rw [hg] at h2
      dsimp only at h2
      dsimp only
      cases hr : resolveGroupOrd schema g with
      | error e =>
        rcases resolveGroupOrd_error_shape schema g e hr with he | he <;> subst he
        · exact Or.inl rfl
        · exact Or.inr rfl
      | ok o =>
        rw [hr] at h2
        dsimp only at h2
        dsimp only
        rw [spineFind_none t o h2]
        exact Or.inl rfl
    | none =>
      dsimp only
      rw [spineFindFirstOrd_none t cur.children h3]
      exact Or.inl rfl

/-- C8, counterexample: on a schema holding no declarations at all, looking
up the tag chain `["config"]` does fail — but with the unhandled
`AttributeError` of `holder_element.get('type')` dereferencing `None`
(parser.py line 326), not with the LookupFailure (`ValueError`) error kind
the claim names. -/
theorem lookup_element_crash_counterexample :
    _lookup_element (.mk "schema" [] []) ["config"] = .error .attributeError ∧
    _lookup_element (.mk "schema" [] []) ["config"] ≠ .error .lookupFailure := by
  refine ⟨rfl, ?_⟩
  intro h
  have h2 := (show _lookup_element (.mk "schema" [] []) ["config"] =
    .error .attributeError from rfl).symm.trans h
  injection h2 with h3
  cases h3

/-- C8, amended: whenever the root-first walk of `_lookup_element` reaches a
level whose scope holds no declaration named like the current tag — neither
as a direct declaration, nor inside the referenced named group's order
indicator (searched recursively), nor inside the order indicators declared
directly in scope (searched recursively) — the lookup fails, but with an
unhandled crash (`AttributeError` from dereferencing `None`, or
`IndexError` inside the group resolution) rather than a designed
LookupFailure. -/
theorem lookup_element_missing_decl_fails :
    ∀ (schema cur : SNode) (t : String) (rest : List String)
      (holder : Option SNode),
      declExists schema cur t = false →
      (lookup_loop schema (t :: rest) (some cur) holder =
          .error .attributeError ∨
        lookup_loop schema (t :: rest) (some cur) holder =
          .error .indexError) := by
  intro schema cur t rest holder h
  rcases lookupLevel_missing schema cur t h with hl | hl
  · left
    simp [lookup_loop, hl]
  · right
    simp [lookup_loop, hl]

/-- Witness for the amended C8: the empty schema recognizes no `config`
declaration, and the walk fails with the `AttributeError` crash. -/
theorem lookup_element_missing_decl_fails_witness :
    declExists (.mk "schema" [] []) (.mk "schema" [] []) "config" = false ∧
    (lookup_loop (.mk "schema" [] []) ["config"] (some (.mk "schema" [] []))
        none = .error .attributeError ∨
      lookup_loop (.mk "schema" [] []) ["config"] (some (.mk "schema" [] []))
        none = .error .indexError) :=
  ⟨rfl, lookup_element_missing_decl_fails (.mk "schema" [] [])
    (.mk "schema" [] []) "config" [] none rfl⟩

end Pyfomod
